import Mathlib

/-!
Verification development for the imiq-project infrastructure repository.

We shallowly embed the Go sources that the specification's claims talk about:

* `decodeSenseCapPayload` (services/sensors: SenseCap binary telemetry decoder),
* `CreateEntity` / `UpdateEntity` (collector: FIWARE entity sync client),
* the Bresser weather-station upload HTTP handler (services/sensors/main.go),
* the collector `Fetch` implementations (parking, OpenWeatherMap, restaurant).

Go maps `map[string]T` are embedded as association lists `List (String × T)`
observed through `alookup`; Go map assignment `m[k] = v` is `aset`.  Bytes are
`Nat` (each byte value is below 256; no arithmetic here can overflow a byte
read, the multi-byte reads are exact big-endian recompositions).  Go `float64`
arithmetic on the decoded values is embedded as exact rational arithmetic: the
only operations performed are divisions by 10 and 1000 of small integers, and
the reference values the tests compare against are produced by the very same
operations.  Fallible Go functions returning `(T, error)` become
`Except String T`.  HTTP effects are embedded by passing the store's
status-code behaviour as a function argument and returning the list of
requests issued.
-/

set_option maxRecDepth 4000

namespace Imiq

/-- Generic association-list lookup (embedding of Go map read `m[k]`). -/
def alookup {β : Type} : List (String × β) → String → Option β
  | [], _ => none
  | (k0, v0) :: rest, k => if k0 = k then some v0 else alookup rest k

/-- Generic association-list update (embedding of Go map write `m[k] = v`):
replaces the first binding of `k` in place, or appends a fresh binding. -/
def aset {β : Type} : List (String × β) → String → β → List (String × β)
  | [], k, v => [(k, v)]
  | (k0, v0) :: rest, k, v =>
    if k0 = k then (k, v) :: rest else (k0, v0) :: aset rest k v

/-- Generic association-list deletion (embedding of Go `delete(m, k)`). -/
def adel {β : Type} : List (String × β) → String → List (String × β)
  | [], _ => []
  | (k0, v0) :: rest, k =>
    if k0 = k then adel rest k else (k0, v0) :: adel rest k

/-- Big-endian 16-bit read, `binary.BigEndian.Uint16`. -/
def be16 (b0 b1 : Nat) : Nat := b0 * 256 + b1

/-- Big-endian 32-bit read, `binary.BigEndian.Uint32`. -/
def be32 (b0 b1 b2 b3 : Nat) : Nat := ((b0 * 256 + b1) * 256 + b2) * 256 + b3

/-- The dynamic values (`any`) stored in the decoder's result map:
Go ints, Go float64 (exact rationals here, see the file comment), and the
version strings produced by frame 0x04. -/
inductive SCValue : Type
  | i : Int → SCValue
  | f : ℚ → SCValue
  | s : String → SCValue
deriving DecidableEq, Repr

/-- The decoder's result mapping `map[string]any`. -/
abbrev Attrs := List (String × SCValue)

/-- One iteration of the `for` loop body of `decodeSenseCapPayload`: reads the
frame id `payload[0]`, and returns either the list of map writes the matching
`switch` case performs (in program order) together with the un-consumed rest of
the payload, or the error the case returns.  The field offsets, widths, scale
factors and error strings are verbatim from the Go `switch`. -/
def decodeFrame : List Nat → Except String (List (String × SCValue) × List Nat)
  | [] => .error "empty payload"
  | frameId :: rest =>
    if frameId = 0x01 ∨ frameId = 0x4A then
      match rest with
      | b1 :: b2 :: b3 :: b4 :: b5 :: b6 :: b7 :: b8 :: b9 :: b10 :: rest2 =>
        .ok ([("temperature", .f ((be16 b1 b2 : ℚ) / 10)),
              ("humidity", .i b3),
              ("lightIntensity", .i (be32 b4 b5 b6 b7)),
              ("lightUV", .f ((b8 : ℚ) / 10)),
              ("windSpeed", .f ((be16 b9 b10 : ℚ) / 10))], rest2)
      | _ => .error "frame too short"
    else if frameId = 0x02 ∨ frameId = 0x4B then
      match rest with
      | b1 :: b2 :: b3 :: b4 :: b5 :: b6 :: b7 :: b8 :: rest2 =>
        .ok ([("windDirection", .i (be16 b1 b2)),
              ("rainIntensity", .f ((be32 b3 b4 b5 b6 : ℚ) / 1000)),
              ("barometricPressure", .i (be16 b7 b8 * 10))], rest2)
      | _ => .error "frame too short"
    else if frameId = 0x4C then
      match rest with
      | b1 :: b2 :: b3 :: b4 :: b5 :: b6 :: rest2 =>
        .ok ([("peakWindGust", .f ((be16 b1 b2 : ℚ) / 10)),
              ("cumulativeRainfall", .f ((be32 b3 b4 b5 b6 : ℚ) / 1000))], rest2)
      | _ => .error "frame too short"
    else if frameId = 0x03 then
      match rest with
      | b1 :: rest2 => .ok ([("batteryLevel", .i b1)], rest2)
      | _ => .error "frame too short"
    else if frameId = 0x04 then
      match rest with
      | b1 :: b2 :: b3 :: b4 :: b5 :: b6 :: b7 :: b8 :: b9 :: rest2 =>
        .ok ([("batteryLevel", .i b1),
              ("hardwareVersion", .s (toString b2 ++ "." ++ toString b3)),
              ("softwareVersion", .s (toString b4 ++ "." ++ toString b5)),
              ("uplinkInterval", .i (be16 b6 b7))], rest2)
      | _ => .error "frame too short"
    else if frameId = 0x05 then
      match rest with
      | b1 :: b2 :: b3 :: b4 :: rest2 =>
        .ok ([("uplinkInterval", .i (be16 b1 b2))], rest2)
      | _ => .error "frame too short"
    else if frameId = 0x06 then
      match rest with
      | _ :: rest2 => .ok ([], rest2)
      | _ => .error "frame too short"
    else
      .error ("invalid frame id " ++ toString frameId)

/-- Perform a list of map writes in order. -/
def insertAll (m : Attrs) (kvs : List (String × SCValue)) : Attrs :=
  kvs.foldl (fun acc kv => aset acc kv.1 kv.2) m

/-- The `for` loop of `decodeSenseCapPayload`: loop while the payload is
non-empty; run the `switch` on the head frame (`decodeFrame`); on an error
return it (the Go function returns `nil, err`, dropping the partial map); on
success perform the case's map writes in order and continue on the
un-consumed suffix of the payload. -/
def decodeLoop (p : List Nat) (result : Attrs) : Except String Attrs :=
  match p with
  | [] => .ok result
  | frameId :: rest =>
    match h : decodeFrame (frameId :: rest) with
    | .error e => .error e
    | .ok (kvs, rest2) => decodeLoop rest2 (insertAll result kvs)
termination_by p.length
decreasing_by
  simp only [decodeFrame] at h
  split_ifs at h <;> (try split at h) <;> simp_all <;> omega

/-- `decodeSenseCapPayload`: run the loop on a fresh empty result map. -/
def decodeSenseCapPayload (payload : List Nat) : Except String Attrs :=
  decodeLoop payload []

/-- The number of bytes (frame id included) a known frame id requires, `none`
for unknown ids; mirrors the `len(payload) < w` guards of the Go switch. -/
def frameWidth (frameId : Nat) : Option Nat :=
  if frameId = 0x01 ∨ frameId = 0x4A then some 11
  else if frameId = 0x02 ∨ frameId = 0x4B then some 9
  else if frameId = 0x4C then some 7
  else if frameId = 0x03 then some 2
  else if frameId = 0x04 then some 10
  else if frameId = 0x05 then some 5
  else if frameId = 0x06 then some 2
  else none

/-- The value the write list `kvs` leaves at key `k` (last write wins),
`none` when `kvs` never writes `k`. -/
def wlookup : List (String × SCValue) → String → Option SCValue
  | [], _ => none
  | (k0, v0) :: rest, k =>
    (wlookup rest k).or (if k0 = k then some v0 else none)

theorem alookup_aset {β : Type} (m : List (String × β)) (k : String) (v : β)
    (k' : String) :
    alookup (aset m k v) k' = if k = k' then some v else alookup m k' := by
  induction m with
  | nil => simp [aset, alookup]
  | cons hd tl ih =>
    obtain ⟨k0, v0⟩ := hd
    by_cases h0 : k0 = k
    · subst h0
      by_cases h1 : k0 = k' <;> simp [aset, alookup, h1]
    · by_cases h1 : k0 = k'
      · have h2 : ¬k = k' := fun h => h0 (h1.trans h.symm)
        have h3 : ¬k' = k := fun h => h2 h.symm
        simp [aset, alookup, h1, h2, h3]
      · simp [aset, alookup, h0, h1, ih]

theorem alookup_insertAll (m : Attrs) (kvs : List (String × SCValue))
    (k : String) :
    alookup (insertAll m kvs) k = (wlookup kvs k).or (alookup m k) := by
  induction kvs generalizing m with
  | nil => simp [insertAll, wlookup]
  | cons hd tl ih =>
    obtain ⟨k0, v0⟩ := hd
    have step : insertAll m ((k0, v0) :: tl) = insertAll (aset m k0 v0) tl := rfl
    rw [step, ih, wlookup, alookup_aset]
    by_cases h : k0 = k
    · simp [h]
      cases wlookup tl k <;> simp
    · simp [h]

theorem wlookup_none_alookup (kvs : List (String × SCValue)) (k : String)
    (h : wlookup kvs k = none) (m : Attrs) :
    alookup (insertAll m kvs) k = alookup m k := by
  rw [alookup_insertAll, h, Option.none_or]

theorem decodeLoop_nil (acc : Attrs) : decodeLoop [] acc = .ok acc := by
  rw [decodeLoop]

/-- The loop body as a plain rewrite rule: one loop iteration dispatches the
head frame and either fails with the frame's error or merges the frame's
writes and continues on the remaining bytes. -/
theorem decodeLoop_cons (frameId : Nat) (rest : List Nat) (acc : Attrs) :
    decodeLoop (frameId :: rest) acc =
      match decodeFrame (frameId :: rest) with
      | .error e => .error e
      | .ok (kvs, rest2) => decodeLoop rest2 (insertAll acc kvs) := by
  rw [decodeLoop]
  rcases hF : decodeFrame (frameId :: rest) with e | ⟨kvs, rest2⟩ <;> simp [hF]

/-- `true` exactly when a Go call returned a nil error. -/
def isOkE {α : Type} : Except String α → Bool
  | .ok _ => true
  | .error _ => false

theorem decodeFrame_length (p : List Nat) (kvs : List (String × SCValue))
    (rest2 : List Nat) (h : decodeFrame p = .ok (kvs, rest2)) :
    rest2.length < p.length := by
  match p with
  | [] => simp [decodeFrame] at h
  | frameId :: rest =>
    simp only [decodeFrame] at h
    split_ifs at h <;> (try split at h) <;> simp_all <;> omega

/-- A frame recognizer only looks at the bytes of its own frame: extending
the buffer extends the un-consumed remainder and changes nothing else. -/
theorem decodeFrame_append (p q : List Nat) (kvs : List (String × SCValue))
    (rest2 : List Nat) (h : decodeFrame p = .ok (kvs, rest2)) :
    decodeFrame (p ++ q) = .ok (kvs, rest2 ++ q) := by
  match p with
  | [] => simp [decodeFrame] at h
  | frameId :: rest =>
    simp only [List.cons_append]
    simp only [decodeFrame] at h ⊢
    split_ifs at h ⊢ <;> (try split at h) <;> simp_all

/-- Processing a buffer that decodes completely, followed by more bytes,
first consumes exactly that buffer's frames and then continues. -/
theorem decodeLoop_append (p : List Nat) (acc : Attrs) (r : Attrs)
    (q : List Nat) (h : decodeLoop p acc = .ok r) :
    decodeLoop (p ++ q) acc = decodeLoop q r := by
  revert h
  induction p, acc using decodeLoop.induct with
  | case1 acc =>
    intro h
    rw [decodeLoop_nil] at h
    cases h
    simp
  | case2 acc frameId rest e hF =>
    intro h
    rw [decodeLoop_cons, hF] at h
    cases h
  | case3 acc frameId rest kvs rest2 hF ih =>
    intro h
    rw [decodeLoop_cons, hF] at h
    have hFq := decodeFrame_append (frameId :: rest) q kvs rest2 hF
    rw [List.cons_append] at hFq
    rw [List.cons_append, decodeLoop_cons, hFq]
    exact ih h

/-- The loop fails (with the same error) independently of the accumulated
result map. -/
theorem decodeLoop_error_congr (p : List Nat) (a : Attrs) (e : String)
    (h : decodeLoop p a = .error e) (b : Attrs) :
    decodeLoop p b = .error e := by
  revert h
  induction p, a using decodeLoop.induct generalizing b with
  | case1 acc =>
    intro h
    rw [decodeLoop_nil] at h
    cases h
  | case2 acc frameId rest e' hF =>
    intro h
    rw [decodeLoop_cons, hF] at h
    cases h
    rw [decodeLoop_cons, hF]
  | case3 acc frameId rest kvs rest2 hF ih =>
    intro h
    rw [decodeLoop_cons, hF] at h
    rw [decodeLoop_cons, hF]
    exact ih (insertAll b kvs) h

/-- The loop succeeds independently of the accumulated result map. -/
theorem decodeLoop_ok_ex (p : List Nat) (a ra : Attrs)
    (h : decodeLoop p a = .ok ra) (b : Attrs) :
    ∃ rb, decodeLoop p b = .ok rb := by
  cases hb : decodeLoop p b with
  | ok rb => exact ⟨rb, rfl⟩
  | error e =>
    rw [decodeLoop_error_congr p b e hb a] at h
    cases h

/-- Running the loop from accumulator `a` yields, key by key, the result of
running it from the empty map overlaid on `a`: a key mentions `a`'s value
exactly when no frame of `p` wrote it. -/
theorem decodeLoop_merge (n : Nat) (p : List Nat) (hn : p.length ≤ n)
    (a ra : Attrs) (h : decodeLoop p a = .ok ra) :
    ∃ r0, decodeLoop p [] = .ok r0 ∧
      ∀ k, alookup ra k = (alookup r0 k).or (alookup a k) := by
  induction n generalizing p a ra with
  | zero =>
    match p, hn with
    | [], _ =>
      rw [decodeLoop_nil] at h
      cases h
      exact ⟨[], decodeLoop_nil [], fun k => by simp [alookup]⟩
  | succ n ih =>
    match p with
    | [] =>
      rw [decodeLoop_nil] at h
      cases h
      exact ⟨[], decodeLoop_nil [], fun k => by simp [alookup]⟩
    | frameId :: rest =>
      cases hF : decodeFrame (frameId :: rest) with
      | error e =>
        rw [decodeLoop_cons, hF] at h
        cases h
      | ok pr =>
        obtain ⟨kvs, rest2⟩ := pr
        have hlen : rest2.length ≤ n := by
          have := decodeFrame_length (frameId :: rest) kvs rest2 hF
          simp only [List.length_cons] at this hn
          omega
        rw [decodeLoop_cons, hF] at h
        obtain ⟨rb, hrb⟩ := decodeLoop_ok_ex rest2 (insertAll a kvs) ra h
          (insertAll [] kvs)
        obtain ⟨r1, hr1, hra⟩ := ih rest2 hlen (insertAll a kvs) ra h
        obtain ⟨r1', hr1', hrbk⟩ := ih rest2 hlen (insertAll [] kvs) rb hrb
        rw [hr1] at hr1'
        cases hr1'
        refine ⟨rb, ?_, ?_⟩
        · rw [decodeLoop_cons, hF]
          exact hrb
        · intro k
          rw [hra k, hrbk k, alookup_insertAll, alookup_insertAll]
          simp [alookup, Option.or_assoc]

/-- The decode result of a single valid buffer `f` at key `k` (`none` when
`f` does not produce `k`). -/
def lookupFrame (f : List Nat) (k : String) : Option SCValue :=
  match decodeSenseCapPayload f with
  | .ok r => alookup r k
  | .error _ => none

/-- The value the last buffer (among `frames`) that produces attribute `k`
assigns to it: the union of the individual decodes, last frame wins. -/
def lastVal : List (List Nat) → String → Option SCValue
  | [], _ => none
  | f :: fs, k => (lastVal fs k).or (lookupFrame f k)

theorem decodeLoop_flatten (frames : List (List Nat))
    (hall : ∀ f ∈ frames, isOkE (decodeSenseCapPayload f) = true)
    (acc : Attrs) :
    ∃ R, decodeLoop frames.flatten acc = .ok R ∧
      ∀ k, alookup R k = (lastVal frames k).or (alookup acc k) := by
  induction frames generalizing acc with
  | nil =>
    exact ⟨acc, decodeLoop_nil acc, fun k => by simp [lastVal]⟩
  | cons f fs ih =>
    have hf : isOkE (decodeSenseCapPayload f) = true := hall f (by simp)
    have hf' : isOkE (decodeLoop f []) = true := hf
    obtain ⟨rf, hrf⟩ : ∃ rf, decodeLoop f [] = .ok rf := by
      cases hd : decodeLoop f [] with
      | ok r => exact ⟨r, rfl⟩
      | error e => rw [hd] at hf'; simp [isOkE] at hf'
    obtain ⟨r', hr'⟩ := decodeLoop_ok_ex f [] rf hrf acc
    obtain ⟨r0, hr0, hmerge⟩ :=
      decodeLoop_merge f.length f le_rfl acc r' hr'
    rw [hrf] at hr0
    cases hr0
    obtain ⟨R, hR, hRk⟩ := ih (fun g hg => hall g (by simp [hg])) r'
    refine ⟨R, ?_, ?_⟩
    · rw [List.flatten_cons, decodeLoop_append f acc r' fs.flatten hr']
      exact hR
    · intro k
      rw [hRk k, hmerge k, lastVal]
      have hlf : lookupFrame f k = alookup rf k := by
        rw [lookupFrame, decodeSenseCapPayload, hrf]
      rw [hlf, Option.or_assoc]

theorem decodeFrame_alias_A (rest : List Nat) :
    decodeFrame (0x01 :: rest) = decodeFrame (0x4A :: rest) := rfl

theorem decodeFrame_alias_B (rest : List Nat) :
    decodeFrame (0x02 :: rest) = decodeFrame (0x4B :: rest) := rfl

/-- A known frame id with fewer bytes available than its layout needs hits
the `len(payload) < w` guard of its `switch` case. -/
theorem decodeFrame_short (frameId : Nat) (w : Nat)
    (hw : frameWidth frameId = some w) (tail : List Nat)
    (hshort : tail.length + 1 < w) :
    decodeFrame (frameId :: tail) = .error "frame too short" := by
  simp only [frameWidth] at hw
  simp only [decodeFrame]
  split_ifs at hw ⊢ <;>
    first
      | (simp only [Option.some.injEq] at hw
         subst hw
         first
           | rfl
           | (split <;> simp_all <;> omega))
      | simp_all

/-- C3: for each known frame id, decoding a byte sequence built to that id's
documented layout yields exactly the documented attribute values — in
particular the 11-byte payload `01 01 15 41 00 00 00 5E 05 00 11` decodes to
temperature 27.7, humidity 65, lightIntensity 94, lightUV 0.5, windSpeed 1.7
(big-endian multi-byte integers, stated scale factors) — and replacing a
frame id by its alias (0x01 by 0x4A, 0x02 by 0x4B) yields the same result
for every payload. -/
theorem sensecap_decode_documented_layouts :
    decodeSenseCapPayload
        [0x01, 0x01, 0x15, 0x41, 0x00, 0x00, 0x00, 0x5E, 0x05, 0x00, 0x11] =
      .ok [("temperature", .f 27.7), ("humidity", .i 65),
           ("lightIntensity", .i 94), ("lightUV", .f 0.5),
           ("windSpeed", .f 1.7)] ∧
    decodeSenseCapPayload [0x02, 0x01, 0x56, 0x00, 0x00, 0x00, 0xFE, 0x27, 0x03] =
      .ok [("windDirection", .i 342), ("rainIntensity", .f 0.254),
           ("barometricPressure", .i 99870)] ∧
    decodeSenseCapPayload [0x4C, 0x00, 0x0B, 0x00, 0x00, 0x06, 0xF2] =
      .ok [("peakWindGust", .f 1.1), ("cumulativeRainfall", .f 1.778)] ∧
    decodeSenseCapPayload [0x03, 0x64] = .ok [("batteryLevel", .i 100)] ∧
    decodeSenseCapPayload [0x04, 0x64, 0x01, 0x01, 0x01, 0x03, 0x00, 0x0A, 0x05, 0xA0] =
      .ok [("batteryLevel", .i 100), ("hardwareVersion", .s "1.1"),
           ("softwareVersion", .s "1.3"), ("uplinkInterval", .i 10)] ∧
    decodeSenseCapPayload [0x05, 0x00, 0x0A, 0x05, 0xA0] =
      .ok [("uplinkInterval", .i 10)] ∧
    decodeSenseCapPayload [0x06, 0xFF] = .ok [] ∧
    (∀ rest : List Nat,
      decodeSenseCapPayload (0x01 :: rest) = decodeSenseCapPayload (0x4A :: rest)) ∧
    (∀ rest : List Nat,
      decodeSenseCapPayload (0x02 :: rest) = decodeSenseCapPayload (0x4B :: rest)) := by
  refine ⟨?_, ?_, ?_, ?_, ?_, ?_, ?_, ?_, ?_⟩
  · simp [decodeSenseCapPayload, decodeLoop_cons, decodeLoop_nil, decodeFrame,
      insertAll, aset, be16, be32]
    norm_num
  · simp [decodeSenseCapPayload, decodeLoop_cons, decodeLoop_nil, decodeFrame,
      insertAll, aset, be16, be32]
    norm_num
  · simp [decodeSenseCapPayload, decodeLoop_cons, decodeLoop_nil, decodeFrame,
      insertAll, aset, be16, be32]
    norm_num
  · simp [decodeSenseCapPayload, decodeLoop_cons, decodeLoop_nil, decodeFrame,
      insertAll, aset, be16, be32]
  · simp [decodeSenseCapPayload, decodeLoop_cons, decodeLoop_nil, decodeFrame,
      insertAll, aset, be16, be32]
    decide
  · simp [decodeSenseCapPayload, decodeLoop_cons, decodeLoop_nil, decodeFrame,
      insertAll, aset, be16, be32]
  · simp [decodeSenseCapPayload, decodeLoop_cons, decodeLoop_nil, decodeFrame,
      insertAll, aset, be16, be32]
  · intro rest
    rw [decodeSenseCapPayload, decodeSenseCapPayload, decodeLoop_cons,
      decodeLoop_cons, decodeFrame_alias_A]
  · intro rest
    rw [decodeSenseCapPayload, decodeSenseCapPayload, decodeLoop_cons,
      decodeLoop_cons, decodeFrame_alias_B]

/-- C4: decoding the back-to-back concatenation of individually valid
buffers succeeds, and the result is, key by key, the union of the individual
decode results with a later frame's value winning on a shared attribute name
(`lastVal`); frames do not otherwise interfere. -/
theorem sensecap_decode_concat (frames : List (List Nat))
    (hall : ∀ f ∈ frames, isOkE (decodeSenseCapPayload f) = true) :
    ∃ R, decodeSenseCapPayload frames.flatten = .ok R ∧
      ∀ k, alookup R k = lastVal frames k := by
  obtain ⟨R, hR, hk⟩ := decodeLoop_flatten frames hall []
  refine ⟨R, hR, fun k => ?_⟩
  rw [hk k]
  simp [alookup]

/-- C4 witness: concatenating a battery frame, an uplink-interval frame and
a second battery frame decodes, and each key reads back the last writer's
value. -/
theorem sensecap_decode_concat_witness :
    ∃ R, decodeSenseCapPayload
        [[0x03, 0x64], [0x05, 0x00, 0x0A, 0x05, 0xA0], [0x03, 0x2A]].flatten =
          .ok R ∧
      ∀ k, alookup R k =
        lastVal [[0x03, 0x64], [0x05, 0x00, 0x0A, 0x05, 0xA0], [0x03, 0x2A]] k :=
  sensecap_decode_concat
    [[0x03, 0x64], [0x05, 0x00, 0x0A, 0x05, 0xA0], [0x03, 0x2A]]
    (by
      intro f hf
      simp only [List.mem_cons, List.not_mem_nil, or_false] at hf
      rcases hf with h | h | h <;> subst h <;>
        simp [decodeSenseCapPayload, decodeLoop_cons, decodeLoop_nil,
          decodeFrame, isOkE])

/-- C5: a buffer that decodes fully, followed by a known frame id with fewer
remaining bytes than that id's layout requires, fails as a whole with the
truncation error; the `Except.error` result carries no partial mapping. -/
theorem sensecap_truncated_frame_fails (p : List Nat) (r : Attrs)
    (hp : decodeSenseCapPayload p = .ok r) (frameId w : Nat)
    (hw : frameWidth frameId = some w) (tail : List Nat)
    (hshort : tail.length + 1 < w) :
    decodeSenseCapPayload (p ++ frameId :: tail) = .error "frame too short" := by
  rw [decodeSenseCapPayload] at hp ⊢
  rw [decodeLoop_append p [] r (frameId :: tail) hp, decodeLoop_cons,
    decodeFrame_short frameId w hw tail hshort]

/-- C5 witness: a valid battery frame followed by a truncated 0x01 frame
fails with the truncation error. -/
theorem sensecap_truncated_frame_fails_witness :
    decodeSenseCapPayload ([0x03, 0x64] ++ 0x01 :: [0x09]) =
      .error "frame too short" :=
  sensecap_truncated_frame_fails [0x03, 0x64] [("batteryLevel", .i 100)]
    (by simp [decodeSenseCapPayload, decodeLoop_cons, decodeLoop_nil,
      decodeFrame, insertAll, aset])
    0x01 11 rfl [0x09] (by decide)

/-- C6: a one-byte buffer whose byte is outside the known frame-id set
fails with the invalid-frame-id error (unknown frames are never skipped),
and decoding the empty buffer succeeds with the empty mapping. -/
theorem sensecap_unknown_frame_id (b : Nat)
    (hb : b ∉ [0x01, 0x02, 0x03, 0x04, 0x05, 0x06, 0x4A, 0x4B, 0x4C]) :
    decodeSenseCapPayload [b] = .error ("invalid frame id " ++ toString b) ∧
    decodeSenseCapPayload [] = .ok [] := by
  simp only [List.mem_cons, List.not_mem_nil, or_false, not_or] at hb
  constructor
  · rw [decodeSenseCapPayload, decodeLoop_cons]
    have hF : decodeFrame [b] = .error ("invalid frame id " ++ toString b) := by
      simp only [decodeFrame]
      split_ifs <;> simp_all
    rw [hF]
  · exact decodeLoop_nil []

/-- C6 witness: byte 0x07 is not a known frame id and is rejected. -/
theorem sensecap_unknown_frame_id_witness :
    decodeSenseCapPayload [0x07] = .error ("invalid frame id " ++ toString (0x07 : Nat)) ∧
    decodeSenseCapPayload [] = .ok [] :=
  sensecap_unknown_frame_id 0x07 (by decide)

/-!
Embedding of the FIWARE entity sync client
(services/collector/src/internal/fiware/fiware.go) and of the sensors
service (services/sensors/src/main.go).

The context store is embedded as a function from the HTTP request issued to
the status code it answers (`store : HttpReq → Nat`); JSON marshalling of a
`map[string]any` is embedded as the map itself, since the client's behaviour
depends only on the key structure and the status codes.  Each operation also
returns the list of requests it issued and the final state of the
caller-supplied map, because `CreateEntity` mutates its `data` argument
(`data["id"] = id`) in Go.
-/

/-- One row of a scraped cafeteria menu (restaurants.go `Meal`). -/
structure Meal : Type where
  NameGerman : String
  NameEnglish : String
  Price : String
  Category : String
deriving Repr

/-- Dynamic JSON-able values (`any`) appearing in entity attribute maps:
strings, Go ints, Go float64 (exact rationals, see the file comment), nested
objects, a `url.Values` multimap (the weather handler embeds the remaining
query parameters as a value), and a scraped menu. -/
inductive EValue : Type
  | s : String → EValue
  | i : Int → EValue
  | q : ℚ → EValue
  | m : List (String × EValue) → EValue
  | qvals : List (String × List String) → EValue
  | meals : List Meal → EValue

/-- An entity attribute map, Go `map[string]any`. -/
abbrev EMap := List (String × EValue)

/-- An HTTP request issued to the context store: target URL and the JSON
body (the marshalled map). -/
structure HttpReq : Type where
  url : String
  body : EMap

/-- Result of one sync-client operation: the returned Go error, the requests
issued (in order), and the final state of the caller-supplied `data` map. -/
structure CallResult : Type where
  err : Except String Unit
  trace : List HttpReq
  dataAfter : EMap

/-- `CreateEntity(fiwareUrl, id, data)`: sets `data["id"] = id` (mutating the
caller's map), posts the map to `fiwareUrl + "/v2/entities/"`, and returns an
error for every response status other than 201. -/
def CreateEntity (store : HttpReq → Nat) (fiwareUrl id : String)
    (data : EMap) : CallResult :=
  let data1 := aset data "id" (.s id)
  let req : HttpReq := ⟨fiwareUrl ++ "/v2/entities/", data1⟩
  if store req ≠ 201 then
    ⟨.error ("unexpected status " ++ toString (store req)), [req], data1⟩
  else
    ⟨.ok (), [req], data1⟩

/-- `UpdateEntity(fiwareUrl, id, data)`: copies `data` without its `type`
key, posts the copy to `fiwareUrl + "/v2/entities/" + id + "/attrs"`; on 404
falls back to `CreateEntity` on the original `data` and returns its result;
on any status other than 204 and 404 returns an error; on 204 succeeds. -/
def UpdateEntity (store : HttpReq → Nat) (fiwareUrl id : String)
    (data : EMap) : CallResult :=
  let dataCopied := adel data "type"
  let req : HttpReq := ⟨fiwareUrl ++ "/v2/entities/" ++ id ++ "/attrs", dataCopied⟩
  let st := store req
  if st = 404 then
    let c := CreateEntity store fiwareUrl id data
    ⟨c.err, req :: c.trace, c.dataAfter⟩
  else if st ≠ 204 then
    ⟨.error ("unexpected status " ++ toString st), [req], data⟩
  else
    ⟨.ok (), [req], data⟩

/-- The body of the update attempt: the caller's map with `type` stripped
(the Go `for k, v := range data { if k != "type" { dataCopied[k] = v } }`
copy loop keeps exactly the non-`type` bindings, which is `adel`). -/
def updateBody (data : EMap) : EMap := adel data "type"

/-- The single update request `UpdateEntity` issues first. -/
def updateReq (fiwareUrl id : String) (data : EMap) : HttpReq :=
  ⟨fiwareUrl ++ "/v2/entities/" ++ id ++ "/attrs", updateBody data⟩

/-- The single create request `CreateEntity` issues. -/
def createReq (fiwareUrl id : String) (data : EMap) : HttpReq :=
  ⟨fiwareUrl ++ "/v2/entities/", aset data "id" (.s id)⟩

/-- Constant `ID_KEY` of main.go. -/
def ID_KEY : String := "wsid"

/-- Constant `PASSWORD_KEY` of main.go. -/
def PASSWORD_KEY : String := "wspw"

/-- Constant `FIWARE_URL` of main.go. -/
def FIWARE_URL : String := "http://orion:1026"

/-- Constant `BRESSER_ID` of main.go. -/
def BRESSER_ID : String := "Sensor:Weather:Walter"

/-- Parsed query parameters, Go `url.Values = map[string][]string`. -/
abbrev Params := List (String × List String)

/-- `url.Values.Get`: first value of the key, or the empty string. -/
def getParam (ps : Params) (k : String) : String :=
  match alookup ps k with
  | some (v :: _) => v
  | _ => ""

/-- Outcome of one run of an upload handler: HTTP status written, message
written (for errors), and the `(entityId, attributes)` upsert calls issued
to the sync client.  (The Go handler only logs an upsert failure, so the
store's answer does not change the outcome; recording the upsert arguments
is the whole observable effect.) -/
structure HandlerOutcome : Type where
  status : Nat
  message : String
  upserts : List (String × EMap)

/-- The `/data/upload.php` handler body registered by `setupBresser`:
require `wsid` (else 400 naming it) and delete it; require `wspw` (else 400
naming it) and delete it; require the first `wspw` value to equal the
pre-shared secret (else 400 "invalid password"); then upsert one entity
mapping `t1hum` to `humidity` and `t1tem` to `temperature` as float-typed
attributes and the remaining parameters to `additionalData` of type any.
Go indexes `password[0]`; a key present in a parsed query carries at least
one value, embedded here as `headD ""`. -/
def bresserHandler (expectedPassword : String) (params : Params) :
    HandlerOutcome :=
  match alookup params ID_KEY with
  | none => ⟨400, ID_KEY ++ " is missing", []⟩
  | some _ =>
    let params1 := adel params ID_KEY
    match alookup params1 PASSWORD_KEY with
    | none => ⟨400, PASSWORD_KEY ++ " is missing", []⟩
    | some password =>
      let params2 := adel params1 PASSWORD_KEY
      if password.headD "" ≠ expectedPassword then
        ⟨400, "invalid password", []⟩
      else
        ⟨200, "",
          [(BRESSER_ID,
            [("humidity", .m [("type", .s "float"),
                              ("value", .s (getParam params2 "t1hum"))]),
             ("temperature", .m [("type", .s "float"),
                                 ("value", .s (getParam params2 "t1tem"))]),
             ("additionalData", .m [("type", .s "any"),
                                    ("value", .qvals params2)])])]⟩

/-- The entity shell `setupBresser` pre-registers at startup. -/
def bresserEntity : EMap :=
  [("type", .s "WeatherObserved"),
   ("humidity", .m [("type", .s "float"), ("value", .i 0)]),
   ("temperature", .m [("type", .s "float"), ("value", .i 0)]),
   ("location", .m [("type", .s "geo:point"),
                    ("value", .s "52.141234471041685, 11.654583803189286")]),
   ("additionalData", .m [("type", .s "any"), ("value", .m [])])]

/-- `setupBresser` startup: create the entity shell (logging and ignoring
any error — the Go comment reads "we continue anyway, maybe the entity
already exists") and register the upload handler. -/
def setupBresser (store : HttpReq → Nat) (expectedPassword : String) :
    CallResult × (Params → HandlerOutcome) :=
  (CreateEntity store FIWARE_URL BRESSER_ID bresserEntity,
   bresserHandler expectedPassword)

/-!
Embedding of the collector `Fetch` implementations the invariant claim
quantifies over (parking.go, weather.go, restaurants.go).  Outbound HTTP and
the scraper are oracles: the parsed weather response, the random draw and
the scrape outcome are arguments.  Coordinates are rationals and their
`"%f, %f"` rendering is abstracted by `coordStr`; no claim depends on the
digits of the rendering.
-/

/-- Coordinate pair (config.Coord). -/
structure Coord : Type where
  Lat : ℚ
  Lon : ℚ

/-- A configured location (config.Location): id, display name, coordinate,
and the free-form metadata mapping captured from the config file. -/
structure Location : Type where
  ID : String
  Name : String
  Coord : Coord
  Metadata : List (String × EValue)

/-- Rendering of `fmt.Sprintf("%f, %f", lat, lon)`. -/
def coordStr (lat lon : ℚ) : String := toString lat ++ ", " ++ toString lon

/-- Character substitution of the `strings.NewReplacer` in restaurants.go:
`;` to `,`, `(` to `[`, `)` to `]`, and `< > = REPL_DQ REPL_SQ REPL_ACC`,
newline and tab to a space (the quote and accent characters are written via
their code points).  All patterns and replacements are single characters and
no replacement matches a later pattern, so the simultaneous replacer equals
this per-character map. -/
def sanitizeChar (c : Char) : Char :=
  if c = ';' then ','
  else if c = '(' then '['
  else if c = ')' then ']'
  else if c = '<' then ' '
  else if c = '>' then ' '
  else if c = '=' then ':'
  else if c = Char.ofNat 34 then ' '
  else if c = Char.ofNat 39 then ' '
  else if c = Char.ofNat 180 then ' '
  else if c = Char.ofNat 10 then ' '
  else if c = Char.ofNat 9 then ' '
  else c

/-- `sanitize` of restaurants.go: apply the replacer, then trim surrounding
whitespace (`strings.TrimSpace`). -/
def sanitize (s : String) : String :=
  String.mk
    ((((s.data.map sanitizeChar).dropWhile Char.isWhitespace).reverse.dropWhile
        Char.isWhitespace).reverse)

/-- Lower-casing of a string, `strings.ToLower`. -/
def lowerStr (s : String) : String := String.mk (s.data.map Char.toLower)

/-- Whether `pat` occurs at the start of `cs`. -/
def isPrefixList : List Char → List Char → Bool
  | [], _ => true
  | _ :: _, [] => false
  | p :: ps, c :: cs => p = c && isPrefixList ps cs

/-- Whether `pat` occurs anywhere in the character list. -/
def containsSubAux (pat : List Char) : List Char → Bool
  | [] => isPrefixList pat []
  | c :: cs => isPrefixList pat (c :: cs) || containsSubAux pat cs

/-- `strings.Contains`. -/
def containsSub (s pat : String) : Bool := containsSubAux pat.data s.data

/-- `formatType` of restaurants.go: capitalize the first rune. -/
def formatType (s : String) : String :=
  match s.data with
  | [] => ""
  | c :: cs => String.mk (c.toUpper :: cs)

/-- `ParkingCollector.Fetch` (parking.go lines 11-28): a fixed-key map with
a random free-space count (the draw `rand.Intn(20)` is the `freeSpaces`
argument). -/
def ParkingCollector_Fetch (coord : Coord) (freeSpaces : Nat) : EMap :=
  [("type", .s "Parking"),
   ("freeSpaces", .m [("type", .s "Integer"), ("value", .i freeSpaces)]),
   ("totalSpaces", .m [("type", .s "Integer"), ("value", .i 20)]),
   ("location", .m [("type", .s "geo:point"),
                    ("value", .s (coordStr coord.Lat coord.Lon))])]

/-- `OpenWeatherMapCollector.Fetch` (weather.go lines 109-140) on a
successful fetch and parse: the parsed response's `Main.Temp` and
`Main.Humidity` are arguments. -/
def OpenWeatherMapCollector_Fetch (mainTemp : ℚ) (mainHumidity : Int)
    (coord : Coord) : EMap :=
  [("temperature", .m [("value", .q mainTemp), ("type", .s "Float")]),
   ("humidity", .m [("value", .i mainHumidity), ("type", .s "Float")]),
   ("location", .m [("type", .s "geo:point"),
                    ("value", .s (coordStr coord.Lat coord.Lon))])]

/-- The place type of restaurants.go lines 33-36: the capitalized
`category` metadata string when present and non-empty, else "Place". -/
def restaurantPlaceType (loc : Location) : String :=
  match alookup loc.Metadata "category" with
  | some (.s cat) => if cat ≠ "" then formatType cat else "Place"
  | _ => "Place"

/-- The base `response` map of restaurants.go lines 37-47. -/
def restaurantBase (loc : Location) (placeType : String) : EMap :=
  [("type", .s placeType),
   ("name", .m [("value", .s (sanitize loc.Name)), ("type", .s "String")]),
   ("location", .m [("type", .s "geo:point"),
                    ("value", .s (coordStr loc.Coord.Lat loc.Coord.Lon))])]

/-- One iteration of the metadata copy loop of restaurants.go lines 48-59:
write the metadata entry verbatim as a String-typed attribute, sanitizing
string values. -/
def restaurantMetaWrite (r : EMap) (kv : String × EValue) : EMap :=
  let safeValue : EValue :=
    match kv.2 with
    | .s strVal => .s (sanitize strVal)
    | v => v
  aset r kv.1 (.m [("value", safeValue), ("type", .s "String")])

/-- `RestaurantCollector.Fetch` (restaurants.go lines 31-76): derive the
place type from the `category` metadata, build the base map, overlay every
metadata entry verbatim (string values sanitized) as a String-typed
attribute, and for a mensa-unicampus location attach the scraped menu when
the scrape succeeded with a non-empty menu (`scrape` is the outcome of
`scrapeMensaColly`). -/
def RestaurantCollector_Fetch (loc : Location)
    (scrape : Except String (List Meal)) : EMap :=
  let placeType := restaurantPlaceType loc
  let response := loc.Metadata.foldl restaurantMetaWrite
    (restaurantBase loc placeType)
  if placeType = "Mensa" ∨ containsSub (lowerStr loc.Name) "mensa" then
    if containsSub (lowerStr loc.Name) "unicampus" then
      match scrape with
      | .ok menu =>
        if menu.length > 0 then
          aset response "todays_menu"
            (.m [("value", .meals menu), ("type", .s "StructuredValue")])
        else response
      | .error _ => response
    else response
  else response

theorem alookup_adel_self {β : Type} (m : List (String × β)) (k : String) :
    alookup (adel m k) k = none := by
  induction m with
  | nil => simp [adel, alookup]
  | cons hd tl ih =>
    obtain ⟨k0, v0⟩ := hd
    by_cases h0 : k0 = k <;> simp [adel, alookup, h0, ih]

theorem alookup_adel_ne {β : Type} (m : List (String × β)) (k k' : String)
    (h : k' ≠ k) : alookup (adel m k) k' = alookup m k' := by
  induction m with
  | nil => simp [adel]
  | cons hd tl ih =>
    obtain ⟨k0, v0⟩ := hd
    by_cases h0 : k0 = k
    · subst h0
      have h1 : ¬k0 = k' := fun hh => h hh.symm
      simp [adel, alookup, h1, ih]
    · simp [adel, alookup, h0, ih]

/-- C1: upsert on an entity the store does not know performs exactly one
update attempt whose body has the `type` key stripped (all other keys
passed through), then — on the store's 404 — exactly one create attempt
carrying the same attributes plus the `id` key; any update status other
than 204 and 404 is returned as a hard error with no create attempt. -/
theorem UpdateEntity_upsert_protocol (store : HttpReq → Nat)
    (fiwareUrl id : String) (data : EMap) :
    (alookup (updateBody data) "type" = none ∧
      ∀ k, k ≠ "type" → alookup (updateBody data) k = alookup data k) ∧
    (store (updateReq fiwareUrl id data) = 404 →
      (UpdateEntity store fiwareUrl id data).trace =
          [updateReq fiwareUrl id data, createReq fiwareUrl id data] ∧
        alookup (createReq fiwareUrl id data).body "id" = some (.s id) ∧
        ∀ k, k ≠ "id" →
          alookup (createReq fiwareUrl id data).body k = alookup data k) ∧
    (∀ st, store (updateReq fiwareUrl id data) = st → st ≠ 204 → st ≠ 404 →
      (UpdateEntity store fiwareUrl id data).err =
          .error ("unexpected status " ++ toString st) ∧
        (UpdateEntity store fiwareUrl id data).trace =
          [updateReq fiwareUrl id data]) := by
  refine ⟨⟨?_, ?_⟩, ?_, ?_⟩
  · exact alookup_adel_self data "type"
  · intro k hk
    exact alookup_adel_ne data "type" k hk
  · intro h404
    refine ⟨?_, ?_, ?_⟩
    · simp only [UpdateEntity, CreateEntity, updateReq, updateBody, createReq]
      simp only [updateReq, updateBody] at h404
      simp [h404]
      split_ifs <;> simp
    · show alookup (aset data "id" (.s id)) "id" = some (.s id)
      rw [alookup_aset]
      simp
    · intro k hk
      show alookup (aset data "id" (.s id)) k = alookup data k
      rw [alookup_aset]
      have h1 : ¬"id" = k := fun h => hk h.symm
      simp [h1]
  · intro st hst h204 h404
    constructor
    · simp only [UpdateEntity, updateReq, updateBody] at hst ⊢
      simp [hst, h204, h404]
    · simp only [UpdateEntity, updateReq, updateBody] at hst ⊢
      simp [hst, h204, h404]

/-- C1 witness: with a store that answers 404 to the update attempt and 201
to the create, upserting a two-attribute entity (one of them `type`) issues
the stripped update followed by the create carrying `id`. -/
theorem UpdateEntity_upsert_protocol_witness :
    (UpdateEntity (fun _ => 404) "u" "E" [("type", .s "T"), ("a", .i 1)]).trace =
      [updateReq "u" "E" [("type", .s "T"), ("a", .i 1)],
       createReq "u" "E" [("type", .s "T"), ("a", .i 1)]] :=
  ((UpdateEntity_upsert_protocol (fun _ => 404) "u" "E"
    [("type", .s "T"), ("a", .i 1)]).2.1 rfl).1

/-- C2 counterexample: the context store (Orion) reports "Already Exists"
conflicts with status 422; `CreateEntity` treats every status other than
201 — the conflict included — as a hard error, not as success, against the
claim that a conflict is tolerated as success. -/
theorem CreateEntity_conflict_returns_error :
    isOkE ((CreateEntity (fun _ => 422) "http://orion:1026"
      "Sensor:Weather:Walter" bresserEntity).err) = false := rfl

/-- C2 amended: `CreateEntity` issues exactly one create attempt and
returns no error exactly when the store answers 201; every other status —
an "already exists" conflict included — is a hard error.  The caller
(`setupBresser`) logs and discards that error, so startup still installs
the upload handler: the handler component of `setupBresser` does not depend
on the create outcome. -/
theorem CreateEntity_status (store : HttpReq → Nat) (fiwareUrl id : String)
    (data : EMap) :
    ((CreateEntity store fiwareUrl id data).err = .ok () ↔
      store (createReq fiwareUrl id data) = 201) ∧
    (CreateEntity store fiwareUrl id data).trace =
      [createReq fiwareUrl id data] ∧
    ∀ expectedPassword,
      (setupBresser store expectedPassword).2 = bresserHandler expectedPassword := by
  by_cases h : store (createReq fiwareUrl id data) = 201 <;>
    simp only [CreateEntity, createReq, setupBresser] at h ⊢ <;>
    simp [h, setupBresser]

/-- C10: `CreateEntity` mutates the caller's map by inserting the `id` key
before sending, and the 404 fallback of `UpdateEntity` passes the caller's
original map to `CreateEntity`; after an upsert that fell back, the
caller-supplied map contains `id` while every other entry is unchanged. -/
theorem create_fallback_mutates_caller_map (store : HttpReq → Nat)
    (fiwareUrl id : String) (data : EMap)
    (h404 : store (updateReq fiwareUrl id data) = 404) :
    (CreateEntity store fiwareUrl id data).dataAfter = aset data "id" (.s id) ∧
    alookup (UpdateEntity store fiwareUrl id data).dataAfter "id" =
      some (.s id) ∧
    ∀ k, k ≠ "id" →
      alookup (UpdateEntity store fiwareUrl id data).dataAfter k =
        alookup data k := by
  simp only [UpdateEntity, CreateEntity, updateReq, updateBody] at h404 ⊢
  refine ⟨?_, ?_, ?_⟩
  · split_ifs <;> rfl
  · simp [h404]
    split_ifs <;> simp [alookup_aset]
  · intro k hk
    simp [h404]
    split_ifs <;> simp [alookup_aset] <;>
      (intro h; exact absurd h.symm hk)

/-- C10 witness: a store answering 404 everywhere makes the upsert fall
back, leaving the caller's one-entry map with `id` added and the original
entry unchanged. -/
theorem create_fallback_mutates_caller_map_witness :
    (CreateEntity (fun _ => 404) "u" "E" [("a", .i 1)]).dataAfter =
      aset [("a", .i 1)] "id" (.s "E") ∧
    alookup (UpdateEntity (fun _ => 404) "u" "E" [("a", .i 1)]).dataAfter "id" =
      some (.s "E") ∧
    ∀ k, k ≠ "id" →
      alookup (UpdateEntity (fun _ => 404) "u" "E" [("a", .i 1)]).dataAfter k =
        alookup [("a", .i 1)] k :=
  create_fallback_mutates_caller_map (fun _ => 404) "u" "E" [("a", .i 1)] rfl

/-- C7: the upload handler rejects with 400 and a message naming the
missing key when `wsid` or `wspw` is absent, and with 400 "invalid
password" when the first `wspw` value differs from the pre-shared secret;
in each case no entity-store call is made. -/
theorem bresser_reject_protocol (expected : String) (params : Params) :
    (alookup params ID_KEY = none →
      bresserHandler expected params = ⟨400, ID_KEY ++ " is missing", []⟩) ∧
    (∀ v, alookup params ID_KEY = some v →
      alookup (adel params ID_KEY) PASSWORD_KEY = none →
      bresserHandler expected params =
        ⟨400, PASSWORD_KEY ++ " is missing", []⟩) ∧
    (∀ v pw rest, alookup params ID_KEY = some v →
      alookup (adel params ID_KEY) PASSWORD_KEY = some (pw :: rest) →
      pw ≠ expected →
      bresserHandler expected params = ⟨400, "invalid password", []⟩) := by
  refine ⟨?_, ?_, ?_⟩
  · intro h
    simp [bresserHandler, h]
  · intro v hid hpw
    simp [bresserHandler, hid, hpw]
  · intro v pw rest hid hpw hne
    simp [bresserHandler, hid, hpw, hne]

/-- C7 witness: a request without `wsid`, one without `wspw`, and one with
a wrong password are each rejected with the documented 400 outcome and no
store call. -/
theorem bresser_reject_protocol_witness :
    bresserHandler "secret" [("a", ["1"])] = ⟨400, "wsid is missing", []⟩ ∧
    bresserHandler "secret" [("wsid", ["w1"])] =
      ⟨400, "wspw is missing", []⟩ ∧
    bresserHandler "secret" [("wsid", ["w1"]), ("wspw", ["bad"])] =
      ⟨400, "invalid password", []⟩ :=
  ⟨(bresser_reject_protocol "secret" [("a", ["1"])]).1 rfl,
   (bresser_reject_protocol "secret" [("wsid", ["w1"])]).2.1 ["w1"] rfl rfl,
   (bresser_reject_protocol "secret" [("wsid", ["w1"]), ("wspw", ["bad"])]).2.2
     ["w1"] "bad" [] rfl rfl (by decide)⟩

/-- C8: with both control keys present and the correct password, the
handler issues exactly one upsert, for the Bresser entity, whose attributes
map `t1hum` to `humidity` and `t1tem` to `temperature` as float-typed
attributes and place the remaining parameter multimap verbatim under
`additionalData` of the opaque any type, with the two control keys removed
from that set and every other key preserved. -/
theorem bresser_success_upsert (expected : String) (params : Params)
    (v rest : List String)
    (hid : alookup params ID_KEY = some v)
    (hpw : alookup (adel params ID_KEY) PASSWORD_KEY = some (expected :: rest)) :
    bresserHandler expected params =
      ⟨200, "",
        [(BRESSER_ID,
          [("humidity", .m [("type", .s "float"),
            ("value", .s (getParam (adel (adel params ID_KEY) PASSWORD_KEY) "t1hum"))]),
           ("temperature", .m [("type", .s "float"),
            ("value", .s (getParam (adel (adel params ID_KEY) PASSWORD_KEY) "t1tem"))]),
           ("additionalData", .m [("type", .s "any"),
            ("value", .qvals (adel (adel params ID_KEY) PASSWORD_KEY))])])]⟩ ∧
    alookup (adel (adel params ID_KEY) PASSWORD_KEY) ID_KEY = none ∧
    alookup (adel (adel params ID_KEY) PASSWORD_KEY) PASSWORD_KEY = none ∧
    ∀ k, k ≠ ID_KEY → k ≠ PASSWORD_KEY →
      alookup (adel (adel params ID_KEY) PASSWORD_KEY) k = alookup params k := by
  refine ⟨?_, ?_, ?_, ?_⟩
  · simp [bresserHandler, hid, hpw]
  · rw [alookup_adel_ne _ _ _ (by decide), alookup_adel_self]
  · exact alookup_adel_self _ _
  · intro k hk1 hk2
    rw [alookup_adel_ne _ _ _ hk2, alookup_adel_ne _ _ _ hk1]

/-- C8 witness: a correct-password upload with one known sensor key and one
unknown key yields the single documented upsert; the unknown key survives
in `additionalData` and both control keys are gone. -/
theorem bresser_success_upsert_witness :
    bresserHandler "s" [("wsid", ["x"]), ("wspw", ["s"]),
        ("t1tem", ["21.5"]), ("foo", ["bar"])] =
      ⟨200, "",
        [(BRESSER_ID,
          [("humidity", .m [("type", .s "float"),
            ("value", .s (getParam (adel (adel [("wsid", ["x"]), ("wspw", ["s"]),
              ("t1tem", ["21.5"]), ("foo", ["bar"])] ID_KEY) PASSWORD_KEY) "t1hum"))]),
           ("temperature", .m [("type", .s "float"),
            ("value", .s (getParam (adel (adel [("wsid", ["x"]), ("wspw", ["s"]),
              ("t1tem", ["21.5"]), ("foo", ["bar"])] ID_KEY) PASSWORD_KEY) "t1tem"))]),
           ("additionalData", .m [("type", .s "any"),
            ("value", .qvals (adel (adel [("wsid", ["x"]), ("wspw", ["s"]),
              ("t1tem", ["21.5"]), ("foo", ["bar"])] ID_KEY) PASSWORD_KEY))])])]⟩ ∧
    alookup (adel (adel [("wsid", ["x"]), ("wspw", ["s"]), ("t1tem", ["21.5"]),
      ("foo", ["bar"])] ID_KEY) PASSWORD_KEY) ID_KEY = none ∧
    alookup (adel (adel [("wsid", ["x"]), ("wspw", ["s"]), ("t1tem", ["21.5"]),
      ("foo", ["bar"])] ID_KEY) PASSWORD_KEY) PASSWORD_KEY = none ∧
    ∀ k, k ≠ ID_KEY → k ≠ PASSWORD_KEY →
      alookup (adel (adel [("wsid", ["x"]), ("wspw", ["s"]), ("t1tem", ["21.5"]),
        ("foo", ["bar"])] ID_KEY) PASSWORD_KEY) k =
        alookup [("wsid", ["x"]), ("wspw", ["s"]), ("t1tem", ["21.5"]),
          ("foo", ["bar"])] k :=
  bresser_success_upsert "s" [("wsid", ["x"]), ("wspw", ["s"]),
    ("t1tem", ["21.5"]), ("foo", ["bar"])] ["x"] [] rfl rfl

theorem alookup_foldl_meta_none (md : List (String × EValue)) :
    ∀ (r : EMap) (k : String), alookup md k = none → alookup r k = none →
      alookup (md.foldl restaurantMetaWrite r) k = none := by
  induction md with
  | nil => intro r k _ hr; simpa using hr
  | cons hd tl ih =>
    intro r k hmd hr
    obtain ⟨k0, v0⟩ := hd
    simp only [alookup] at hmd
    by_cases h0 : k0 = k
    · simp [h0] at hmd
    · simp only [h0, if_false] at hmd
      simp only [List.foldl_cons]
      refine ih _ k hmd ?_
      simp only [restaurantMetaWrite]
      rw [alookup_aset]
      simp [h0, hr]

/-- C9 counterexample: the restaurant collector copies every metadata key
of the configured location verbatim into the returned attribute mapping, so
a location whose metadata carries an `id` key makes a successful fetch
return a mapping that contains the reserved key `id`, against the claim
that no collector-produced mapping ever contains it. -/
theorem restaurant_fetch_metadata_id_collision :
    (alookup (RestaurantCollector_Fetch
      ⟨"L1", "Cafe One", ⟨0, 0⟩, [("id", .s "Injected")]⟩
      (.error "offline")) "id").isSome = true := rfl

/-- C9 amended: the attribute mapping of a successful fetch never contains
the reserved key `id` for the parking and weather collectors; for the
restaurant collector this holds exactly when the location's metadata does
not itself contain an `id` key (metadata is copied verbatim). -/
theorem collectors_no_id_key (coord : Coord) :
    (∀ free, alookup (ParkingCollector_Fetch coord free) "id" = none) ∧
    (∀ t h, alookup (OpenWeatherMapCollector_Fetch t h coord) "id" = none) ∧
    (∀ loc scrape, alookup loc.Metadata "id" = none →
      alookup (RestaurantCollector_Fetch loc scrape) "id" = none) := by
  refine ⟨?_, ?_, ?_⟩
  · intro free
    simp [ParkingCollector_Fetch, alookup]
  · intro t h
    simp [OpenWeatherMapCollector_Fetch, alookup]
  · intro loc scrape hmd
    have hbase :
        alookup (loc.Metadata.foldl restaurantMetaWrite
          (restaurantBase loc (restaurantPlaceType loc))) "id" = none :=
      alookup_foldl_meta_none loc.Metadata _ "id" hmd
        (by simp [restaurantBase, alookup])
    cases scrape with
    | error e =>
      simp only [RestaurantCollector_Fetch]
      split_ifs <;> exact hbase
    | ok menu =>
      simp only [RestaurantCollector_Fetch]
      split_ifs <;> first
        | exact hbase
        | (rw [alookup_aset]; simp [hbase])

/-- C9 amended witness: a restaurant location whose metadata has no `id`
key fetches to a mapping without `id`. -/
theorem collectors_no_id_key_witness :
    alookup (RestaurantCollector_Fetch
      ⟨"L2", "Spot", ⟨1, 2⟩, [("category", .s "cafe")]⟩
      (.error "offline")) "id" = none :=
  (collectors_no_id_key ⟨1, 2⟩).2.2
    ⟨"L2", "Spot", ⟨1, 2⟩, [("category", .s "cafe")]⟩ (.error "offline") rfl

end Imiq
